import Mathlib

/-
  Verification of the capacity/allocation accounting of the
  engineering-resource-management application (piyushgyl01/erm-fullstack).

  The definitions below are shallow embeddings of the client-side code:
    - src/client/src/services/apiService.tsx   (isDateInRange, service types)
    - src/client/src/pages/AnalyticsPage.tsx   (workload / capacity arithmetic)
    - src/client/src/pages/ManagerDashboard.tsx (over-allocation, utilization)
    - src/client/src/pages/EngineersPage.tsx   (utilizationPercentage)
    - src/pages/AssignmentsPage.tsx            (assignmentSchema, onSubmit)
    - src/contexts/AppContext.tsx              (appReducer, getEngineerCapacity)

  Dates are modelled as integer timestamps (the value of Date.getTime());
  date-fns isAfter / isBefore are strict comparisons on that value.
  Percentages are integers in the data model; where JavaScript division is
  involved the operands are embedded as exact rationals, and division by
  zero is modelled explicitly with the IEEE-754 special values JavaScript
  produces (Infinity, -Infinity, NaN).
-/

namespace Erm

/-- An assignment record (interface Assignment in apiService.tsx), restricted
to the fields the capacity accounting reads.  In the source, engineerId and
projectId are populated objects; the accounting only ever reads their _id
strings, so they are embedded as those strings. -/
structure Assignment where
  mongoId : String
  engineerId : String
  projectId : String
  allocationPercentage : Int
  startDate : Int
  endDate : Int
  role : String
deriving Repr, DecidableEq

/-- isDateInRange (apiService.tsx): returns
isAfter(now, start) AND isBefore(now, end), i.e. the strict test
start < now AND now < end, with now the evaluation instant. -/
def isDateInRange (now startDate endDate : Int) : Bool :=
  decide (startDate < now) && decide (now < endDate)

/-- myAssignments (AnalyticsPage.tsx engineer-dashboard section): the
assignments whose engineerId._id equals the current user's id. -/
def myAssignments (userId : String) (assignments : List Assignment) :
    List Assignment :=
  assignments.filter (fun a => a.engineerId == userId)

/-- activeAssignments (AnalyticsPage.tsx): the subset of myAssignments for
which isDateInRange holds at the evaluation instant. -/
def activeAssignments (now : Int) (assignments : List Assignment) :
    List Assignment :=
  assignments.filter (fun a => isDateInRange now a.startDate a.endDate)

/-- currentWorkload (AnalyticsPage.tsx): activeAssignments.reduce(
(sum, assignment) => sum + assignment.allocationPercentage, 0), computed
over the current user's assignments. -/
def currentWorkload (userId : String) (now : Int)
    (assignments : List Assignment) : Int :=
  (activeAssignments now (myAssignments userId assignments)).foldl
    (fun sum a => sum + a.allocationPercentage) 0

/-- availableCapacity (AnalyticsPage.tsx):
Math.max(0, maxCapacity - currentWorkload). -/
def availableCapacity (maxCapacity allocated : Int) : Int :=
  max 0 (maxCapacity - allocated)

/-- Spec-side restatement for claim C6 (from the spec's words, to be compared
with currentWorkload): the sum, over all assignments, of allocationPercentage
when the assignment belongs to the engineer and its interval passes the
in-range test, and 0 otherwise. -/
def specAllocated (userId : String) (now : Int)
    (assignments : List Assignment) : Int :=
  (assignments.map (fun a =>
    if a.engineerId == userId && isDateInRange now a.startDate a.endDate
    then a.allocationPercentage else 0)).sum

lemma foldl_add_alloc (l : List Assignment) (c : Int) :
    l.foldl (fun sum a => sum + a.allocationPercentage) c
      = c + (l.map (fun a => a.allocationPercentage)).sum := by
  induction l generalizing c with
  | nil => simp
  | cons a t ih => simp [List.foldl_cons, ih, add_assoc]

/-- C4 counterexample: the spec's inclusive overlap formula holds at a
boundary-touching input (now equal to startDate) yet isDateInRange rejects
it, so the code's test is not inclusive of boundary-touching ranges. -/
theorem c4_counterexample :
    isDateInRange 5 5 10 = false ∧ (5 : Int) ≤ 5 ∧ (5 : Int) ≤ 10 := by
  decide

/-- C4 (amended): the assignment-selection test isDateInRange is a
point-in-interval test with strict inequalities: it accepts exactly when
startDate < now and now < endDate, hence an assignment that starts or ends
exactly at the evaluation instant is excluded. -/
theorem c4_strict_point_in_range (now s e : Int) :
    (isDateInRange now s e = true ↔ s < now ∧ now < e)
      ∧ isDateInRange s s e = false ∧ isDateInRange e s e = false := by
  refine ⟨?_, ?_, ?_⟩
  · simp [isDateInRange]
  · simp [isDateInRange]
  · simp [isDateInRange]

/-- C5: availableCapacity composed with the workload computation is never
negative; it equals maxCapacity minus the allocation when the allocation
fits, and 0 when the allocation meets or exceeds maxCapacity. -/
theorem c5_available_capacity_nonneg (cap : Int) (userId : String)
    (now : Int) (l : List Assignment) :
    0 ≤ availableCapacity cap (currentWorkload userId now l)
      ∧ (currentWorkload userId now l ≤ cap →
          availableCapacity cap (currentWorkload userId now l)
            = cap - currentWorkload userId now l)
      ∧ (cap ≤ currentWorkload userId now l →
          availableCapacity cap (currentWorkload userId now l) = 0) := by
  refine ⟨le_max_left _ _, fun h => ?_, fun h => ?_⟩
  · simp [availableCapacity, max_eq_right, sub_nonneg.mpr h]
  · simp [availableCapacity, max_eq_left, sub_nonpos.mpr h]

/-- C5 witness: the nonnegativity and both branches of the max at concrete
inputs. -/
theorem c5_witness :
    availableCapacity 100 (currentWorkload "e1" 5
        [⟨"a1", "e1", "p1", 30, 0, 10, "Developer"⟩]) = 70 := by
  have h := c5_available_capacity_nonneg 100 "e1" 5
    [⟨"a1", "e1", "p1", 30, 0, 10, "Developer"⟩]
  have hle : currentWorkload "e1" 5
      [⟨"a1", "e1", "p1", 30, 0, 10, "Developer"⟩] ≤ 100 := by decide
  have := h.2.1 hle
  rw [this]
  decide

/-- C6: currentWorkload equals the spec's sum: allocationPercentage summed
over exactly the assignments that belong to the engineer and pass the
in-range test; assignments of other engineers or out of range contribute
nothing. -/
theorem c6_workload_eq_spec_sum (userId : String) (now : Int)
    (l : List Assignment) :
    currentWorkload userId now l = specAllocated userId now l := by
  induction l with
  | nil => simp [currentWorkload, specAllocated, myAssignments,
      activeAssignments]
  | cons a t ih =>
    simp only [currentWorkload, myAssignments, activeAssignments,
      List.filter_cons, specAllocated, List.map_cons, List.sum_cons] at *
    by_cases hm : (a.engineerId == userId) = true
    · by_cases hr : isDateInRange now a.startDate a.endDate = true
      · simp [hm, hr, foldl_add_alloc] at *
        omega
      · simp [hm, hr] at *
        omega
    · by_cases hr : isDateInRange now a.startDate a.endDate = true
      · simp [hm, hr] at *
        omega
      · simp [hm, hr] at *
        omega

/-- The assignment form data (AssignmentsPage.tsx, AssignmentFormData).
The two date fields are z.string() inputs parsed with new Date(...); they are
embedded as the parsed timestamps, so the nonemptiness check on them becomes
implicit in the model. -/
structure AssignmentFormData where
  engineerId : String
  projectId : String
  allocationPercentage : Int
  startDate : Int
  endDate : Int
  role : String
deriving Repr, DecidableEq

/-- assignmentSchema (AssignmentsPage.tsx): the zod object checks
(nonempty engineerId, projectId, role; allocationPercentage between 1 and
100) together with the refinement new Date(endDate) > new Date(startDate). -/
def assignmentSchemaCheck (d : AssignmentFormData) : Bool :=
  (d.engineerId != "") && (d.projectId != "")
    && decide (1 ≤ d.allocationPercentage)
    && decide (d.allocationPercentage ≤ 100)
    && (d.role != "") && decide (d.startDate < d.endDate)

/-- The externally visible outcome of submitting the assignment form. -/
inductive SubmitOutcome where
  /-- zodResolver rejects the data; onSubmit is never entered. -/
  | rejectedByValidation
  /-- onSubmit alerts about insufficient capacity and returns early;
  neither createAssignment nor updateAssignment is invoked. -/
  | blockedByCapacity
  /-- createAssignment is invoked. -/
  | created
  /-- updateAssignment is invoked. -/
  | updated
deriving Repr, DecidableEq

/-- onSubmit (AssignmentsPage.tsx): the capacity guard runs only when
editingAssignment is null and capacityInfo is set (a capacityInfo object is
always truthy, whatever its available field); when the proposed allocation
exceeds capacityInfo.available it alerts and returns without writing.
Otherwise an edit calls updateAssignment and a create calls createAssignment.
capacityInfo is embedded as its available field. -/
def onSubmit (editingAssignment : Option Assignment)
    (capacityInfo : Option Int) (d : AssignmentFormData) : SubmitOutcome :=
  if editingAssignment.isNone && capacityInfo.isSome
      && decide (capacityInfo.getD 0 < d.allocationPercentage) then
    SubmitOutcome.blockedByCapacity
  else
    match editingAssignment with
    | some _ => SubmitOutcome.updated
    | none => SubmitOutcome.created

/-- The submit pipeline: handleSubmit(onSubmit) runs onSubmit only when the
data passes assignmentSchema. -/
def submitAssignment (editingAssignment : Option Assignment)
    (capacityInfo : Option Int) (d : AssignmentFormData) : SubmitOutcome :=
  if assignmentSchemaCheck d then onSubmit editingAssignment capacityInfo d
  else SubmitOutcome.rejectedByValidation

/-- getEngineerCapacity (AppContext.tsx): returns the availableCapacity from
the API response, and 0 when the lookup throws (missing records, network
failure). The fallible lookup is embedded as an Except value. -/
def getEngineerCapacity (lookup : Except String Int) : Int :=
  match lookup with
  | Except.ok availableCapacity => availableCapacity
  | Except.error _ => 0

/-- C1 counterexample: a valid new assignment of 60% for an engineer with
50% available is blocked: submit ends in blockedByCapacity, not created, so
the over-allocation check does block the write. -/
theorem c1_counterexample :
    submitAssignment none (some 50)
        ⟨"e1", "p1", 60, 0, 10, "Developer"⟩
      = SubmitOutcome.blockedByCapacity
    ∧ submitAssignment none (some 50)
        ⟨"e1", "p1", 60, 0, 10, "Developer"⟩
      ≠ SubmitOutcome.created := by
  decide

/-- C1 (amended): for every new (non-edit) assignment that passes
validation and whose allocationPercentage exceeds the fetched available
capacity, the submit operation surfaces an alert and returns without
invoking createAssignment: the over-allocation check blocks the write for
creates (it is skipped for edits). -/
theorem c1_create_blocked_when_over_capacity (d : AssignmentFormData)
    (available : Int) (hv : assignmentSchemaCheck d = true)
    (hover : available < d.allocationPercentage) :
    submitAssignment none (some available) d
      = SubmitOutcome.blockedByCapacity := by
  simp [submitAssignment, hv, onSubmit, hover]

/-- C1 witness: the amended theorem applied at a concrete over-capacity
create. -/
theorem c1_create_blocked_witness :
    submitAssignment none (some 50)
        ⟨"e2", "p2", 70, 3, 9, "QA Engineer"⟩
      = SubmitOutcome.blockedByCapacity :=
  c1_create_blocked_when_over_capacity
    ⟨"e2", "p2", 70, 3, 9, "QA Engineer"⟩ 50 (by decide) (by decide)

/-- C2 counterexample: editing an assignment to 100% while the engineer has
0% available still ends in updated: no warning is surfaced and no allocation
is recomputed, because the capacity guard tests !editingAssignment first. -/
theorem c2_counterexample :
    submitAssignment (some ⟨"a1", "e1", "p1", 40, 0, 10, "Developer"⟩)
        (some 0) ⟨"e1", "p1", 100, 0, 10, "Developer"⟩
      = SubmitOutcome.updated := by
  decide

/-- C2 (amended): for every edited assignment that passes validation, the
capacity check is skipped entirely: updateAssignment is invoked regardless
of the engineer's available capacity, with no recomputation excluding the
edited assignment and no warning. -/
theorem c2_edit_skips_capacity_check (a : Assignment)
    (capacityInfo : Option Int) (d : AssignmentFormData)
    (hv : assignmentSchemaCheck d = true) :
    submitAssignment (some a) capacityInfo d = SubmitOutcome.updated := by
  simp [submitAssignment, hv, onSubmit]

/-- C2 witness: the amended theorem applied at a concrete edit. -/
theorem c2_edit_skips_witness :
    submitAssignment (some ⟨"a9", "e9", "p9", 10, 1, 2, "Architect"⟩)
        (some 5) ⟨"e9", "p9", 90, 1, 2, "Architect"⟩
      = SubmitOutcome.updated :=
  c2_edit_skips_capacity_check ⟨"a9", "e9", "p9", 10, 1, 2, "Architect"⟩
    (some 5) ⟨"e9", "p9", 90, 1, 2, "Architect"⟩ (by decide)

/-- C3 counterexample: for an engineer with maxCapacity 100, a failed
capacity lookup yields 0 available capacity, not the full 100 the claim
says a zero-allocation treatment would produce. -/
theorem c3_counterexample :
    getEngineerCapacity (Except.error "engineer not found") = 0
      ∧ (0 : Int) ≠ 100 := by
  decide

/-- C3 (amended): when the capacity lookup fails, getEngineerCapacity
returns 0: the engineer is treated as having zero available capacity
(fully allocated), not as having zero allocation with full maxCapacity
available. -/
theorem c3_failure_returns_zero_available (msg : String) :
    getEngineerCapacity (Except.error msg) = 0 := by
  rfl

/-- C8: a submission whose endDate is before its startDate is rejected by
the schema before onSubmit runs: no capacity accounting, no create and no
update is attempted, for any editing state and any capacity info. -/
theorem c8_invalid_range_rejected (editingAssignment : Option Assignment)
    (capacityInfo : Option Int) (d : AssignmentFormData)
    (h : d.endDate < d.startDate) :
    submitAssignment editingAssignment capacityInfo d
      = SubmitOutcome.rejectedByValidation := by
  have hfail : assignmentSchemaCheck d = false := by
    simp [assignmentSchemaCheck]
    intro h1 h2 h3 h4 h5
    omega
  simp [submitAssignment, hfail]

/-- C8 witness: the theorem applied at a concrete inverted date range. -/
theorem c8_invalid_range_witness :
    submitAssignment none (some 100)
        ⟨"e1", "p1", 50, 10, 3, "Developer"⟩
      = SubmitOutcome.rejectedByValidation :=
  c8_invalid_range_rejected none (some 100)
    ⟨"e1", "p1", 50, 10, 3, "Developer"⟩ (by decide)

/-- JavaScript number semantics restricted to what the utilization
arithmetic exercises: finite values are exact rationals, and division by
zero yields the IEEE-754 special values Infinity, -Infinity and NaN exactly
as the JavaScript / operator does (negative zero is not modelled; no
operand here produces it). -/
inductive JSNum where
  | num (q : ℚ)
  | inf
  | negInf
  | nan
deriving Repr, DecidableEq

namespace JSNum

/-- JavaScript division, including the x / 0 special cases. -/
def div : JSNum → JSNum → JSNum
  | num a, num b =>
      if b = 0 then (if a = 0 then nan else if 0 < a then inf else negInf)
      else num (a / b)
  | num _, inf => num 0
  | num _, negInf => num 0
  | inf, num b => if 0 ≤ b then inf else negInf
  | negInf, num b => if 0 ≤ b then negInf else inf
  | inf, inf => nan
  | inf, negInf => nan
  | negInf, inf => nan
  | negInf, negInf => nan
  | nan, _ => nan
  | _, nan => nan

/-- JavaScript multiplication on the same value space. -/
def mul : JSNum → JSNum → JSNum
  | num a, num b => num (a * b)
  | num a, inf => if a = 0 then nan else if 0 < a then inf else negInf
  | inf, num b => if b = 0 then nan else if 0 < b then inf else negInf
  | num a, negInf => if a = 0 then nan else if 0 < a then negInf else inf
  | negInf, num b => if b = 0 then nan else if 0 < b then negInf else inf
  | inf, inf => inf
  | negInf, negInf => inf
  | inf, negInf => negInf
  | negInf, inf => negInf
  | nan, _ => nan
  | _, nan => nan

/-- The JavaScript > comparison; every comparison with NaN is false. -/
def jsGt : JSNum → JSNum → Bool
  | num a, num b => decide (b < a)
  | inf, num _ => true
  | inf, negInf => true
  | num _, negInf => true
  | _, _ => false

/-- Number.isFinite. -/
def isFinite : JSNum → Bool
  | num _ => true
  | _ => false

end JSNum

/-- utilizationPercentage (EngineersPage.tsx):
engineer.currentAllocation ? (currentAllocation / maxCapacity) * 100 : 0.
JS truthiness: an undefined or zero allocation takes the 0 branch, so the
division is guarded by the allocation (but not by maxCapacity). -/
def utilizationPercentage (currentAllocation : Option ℚ)
    (maxCapacity : ℚ) : JSNum :=
  match currentAllocation with
  | some c =>
      if c = 0 then JSNum.num 0
      else JSNum.mul (JSNum.div (JSNum.num c) (JSNum.num maxCapacity))
        (JSNum.num 100)
  | none => JSNum.num 0

/-- The per-engineer utilization of AnalyticsPage utilizationAnalysis:
((engineer.currentAllocation || 0) / engineer.maxCapacity) * 100,
with no guard on maxCapacity. -/
def utilizationAnalysisEntry (currentAllocation : Option ℚ)
    (maxCapacity : ℚ) : JSNum :=
  JSNum.mul
    (JSNum.div (JSNum.num (currentAllocation.getD 0)) (JSNum.num maxCapacity))
    (JSNum.num 100)

/-- The per-engineer term summed by ManagerDashboard averageUtilization:
((engineer.currentAllocation || 0) / engineer.maxCapacity) * 100,
with no guard on maxCapacity. -/
def dashboardUtilizationTerm (currentAllocation : Option ℚ)
    (maxCapacity : ℚ) : JSNum :=
  JSNum.mul
    (JSNum.div (JSNum.num (currentAllocation.getD 0)) (JSNum.num maxCapacity))
    (JSNum.num 100)

/-- ManagerDashboard overAllocatedEngineers predicate for one engineer:
e.currentAllocation && e.currentAllocation > e.maxCapacity; JS truthiness
makes an undefined or zero allocation short-circuit to false. -/
def isOverAllocatedDashboard (currentAllocation : Option Int)
    (maxCapacity : Int) : Bool :=
  match currentAllocation with
  | none => false
  | some c => if c = 0 then false else decide (maxCapacity < c)

/-- AnalyticsPage overAllocatedEngineers predicate for one engineer:
eng.utilization > 100 over the utilizationAnalysis entry. -/
def isOverAllocatedAnalytics (currentAllocation : Option ℚ)
    (maxCapacity : ℚ) : Bool :=
  JSNum.jsGt (utilizationAnalysisEntry currentAllocation maxCapacity)
    (JSNum.num 100)

lemma divZero_mul_hundred_not_finite (a : ℚ) :
    (JSNum.mul (JSNum.div (JSNum.num a) (JSNum.num 0))
      (JSNum.num 100)).isFinite = false := by
  by_cases h : a = 0
  · simp [JSNum.div, JSNum.mul, JSNum.isFinite, h]
  · by_cases h2 : 0 < a
    · norm_num [JSNum.div, JSNum.mul, JSNum.isFinite, h, h2]
    · norm_num [JSNum.div, JSNum.mul, JSNum.isFinite, h, h2]

lemma divPos_mul_hundred_finite (a cap : ℚ) (hcap : cap ≠ 0) :
    (JSNum.mul (JSNum.div (JSNum.num a) (JSNum.num cap))
      (JSNum.num 100)).isFinite = true := by
  simp [JSNum.div, JSNum.mul, JSNum.isFinite, hcap]

/-- C7: an engineer is counted over-allocated exactly when the allocation
strictly exceeds maxCapacity, at both sites: the ManagerDashboard predicate
(for any nonnegative maxCapacity, an absent allocation counting as 0) and
the AnalyticsPage utilization > 100 predicate (for positive maxCapacity);
allocation equal to maxCapacity is not over-allocated. -/
theorem c7_over_allocated_iff (c : Option Int) (cap : Int)
    (cQ : Option ℚ) (capQ : ℚ) (hcap : 0 ≤ cap) (hcapQ : 0 < capQ) :
    (isOverAllocatedDashboard c cap = true ↔ cap < c.getD 0)
      ∧ (isOverAllocatedAnalytics cQ capQ = true ↔ capQ < cQ.getD 0) := by
  constructor
  · cases c with
    | none => simp [isOverAllocatedDashboard]; omega
    | some v =>
      by_cases hv : v = 0
      · simp [isOverAllocatedDashboard, hv]; omega
      · simp [isOverAllocatedDashboard, hv]
  · have hne : capQ ≠ 0 := ne_of_gt hcapQ
    simp only [isOverAllocatedAnalytics, utilizationAnalysisEntry,
      JSNum.div, hne, if_false, JSNum.mul, JSNum.jsGt, decide_eq_true_eq]
    rw [div_mul_eq_mul_div, lt_div_iff₀ hcapQ]
    constructor <;> intro h <;> nlinarith

/-- C7 witness: both predicates flag a 120% allocation against capacity 100,
via the theorem. -/
theorem c7_over_allocated_witness :
    isOverAllocatedDashboard (some 120) 100 = true
      ∧ isOverAllocatedAnalytics (some 120) 100 = true := by
  have h := c7_over_allocated_iff (some 120) 100 (some (120 : ℚ)) 100
    (by decide) (by norm_num)
  exact ⟨h.1.mpr (by decide), h.2.mpr (by norm_num)⟩

/-- C9 counterexample: at the EngineersPage site the truthiness guard means
an engineer with maxCapacity 0 and allocation 0 gets the finite utilization
0, so it is not true that every allocation yields a non-finite value. -/
theorem c9_counterexample :
    utilizationPercentage (some 0) 0 = JSNum.num 0
      ∧ (utilizationPercentage (some 0) 0).isFinite = true := by
  constructor <;> simp [utilizationPercentage, JSNum.isFinite]

/-- C9 (amended): with maxCapacity = 0, the unguarded divisions of
AnalyticsPage and ManagerDashboard produce a non-finite value for every
allocation, and the EngineersPage utilizationPercentage produces a
non-finite value for every nonzero allocation (its truthiness guard returns
the finite 0 for a zero or absent allocation); with maxCapacity > 0 all
three sites are finite, so the computation is well-defined exactly under
that precondition. -/
theorem c9_utilization_finiteness (c : Option ℚ) :
    (utilizationAnalysisEntry c 0).isFinite = false
      ∧ (dashboardUtilizationTerm c 0).isFinite = false
      ∧ (∀ q : ℚ, c = some q → q ≠ 0 →
          (utilizationPercentage c 0).isFinite = false)
      ∧ (∀ cap : ℚ, 0 < cap →
          (utilizationPercentage c cap).isFinite = true
            ∧ (utilizationAnalysisEntry c cap).isFinite = true
            ∧ (dashboardUtilizationTerm c cap).isFinite = true) := by
  refine ⟨divZero_mul_hundred_not_finite _, divZero_mul_hundred_not_finite _,
    ?_, ?_⟩
  · intro q hq hq0
    subst hq
    simp only [utilizationPercentage, hq0, if_false]
    exact divZero_mul_hundred_not_finite q
  · intro cap hcap
    have hne : cap ≠ 0 := ne_of_gt hcap
    refine ⟨?_, divPos_mul_hundred_finite _ _ hne,
      divPos_mul_hundred_finite _ _ hne⟩
    cases c with
    | none => simp [utilizationPercentage, JSNum.isFinite]
    | some q =>
      by_cases hq : q = 0
      · simp [utilizationPercentage, hq, JSNum.isFinite]
      · simp only [utilizationPercentage, hq, if_false]
        exact divPos_mul_hundred_finite _ _ hne

/-- C9 witness: the amended theorem at allocation 5, for maxCapacity 0 and
maxCapacity 10. -/
theorem c9_utilization_witness :
    (utilizationPercentage (some (5 : ℚ)) 0).isFinite = false
      ∧ (utilizationPercentage (some (5 : ℚ)) 10).isFinite = true := by
  have h := c9_utilization_finiteness (some (5 : ℚ))
  exact ⟨h.2.2.1 5 rfl (by norm_num), (h.2.2.2 10 (by norm_num)).1⟩

/-- The assignment-related slice of AppState (AppContext.tsx); the fields
the assignment actions of appReducer read or write. -/
structure AppStateSlice where
  assignments : List Assignment
  assignmentsLoading : Bool
  assignmentsError : Option String
  isCreating : Bool
  isUpdating : Bool
  isDeleting : Bool
deriving Repr, DecidableEq

/-- The assignment actions of AppAction (AppContext.tsx). -/
inductive AppActionA where
  | loadAssignmentsStart
  | loadAssignmentsSuccess (payload : List Assignment)
  | loadAssignmentsFailure (payload : String)
  | createAssignmentStart
  | createAssignmentSuccess (payload : Assignment)
  | createAssignmentFailure (payload : String)
  | updateAssignmentStart
  | updateAssignmentSuccess (payload : Assignment)
  | updateAssignmentFailure (payload : String)
  | deleteAssignmentStart
  | deleteAssignmentSuccess (payload : String)
  | deleteAssignmentFailure (payload : String)
deriving Repr, DecidableEq

/-- appReducer (AppContext.tsx) restricted to the assignment actions; each
case is the corresponding object spread of the source. -/
def appReducer (state : AppStateSlice) (action : AppActionA) :
    AppStateSlice :=
  match action with
  | .loadAssignmentsStart =>
      { state with assignmentsLoading := true, assignmentsError := none }
  | .loadAssignmentsSuccess p =>
      { state with
        assignments := p
        assignmentsLoading := false
        assignmentsError := none }
  | .loadAssignmentsFailure p =>
      { state with assignmentsLoading := false, assignmentsError := some p }
  | .createAssignmentStart =>
      { state with isCreating := true, assignmentsError := none }
  | .createAssignmentSuccess p =>
      { state with
        assignments := p :: state.assignments
        isCreating := false
        assignmentsError := none }
  | .createAssignmentFailure p =>
      { state with isCreating := false, assignmentsError := some p }
  | .updateAssignmentStart =>
      { state with isUpdating := true, assignmentsError := none }
  | .updateAssignmentSuccess p =>
      { state with
        assignments := state.assignments.map
          (fun a => if a.mongoId == p.mongoId then p else a)
        isUpdating := false
        assignmentsError := none }
  | .updateAssignmentFailure p =>
      { state with isUpdating := false, assignmentsError := some p }
  | .deleteAssignmentStart =>
      { state with isDeleting := true, assignmentsError := none }
  | .deleteAssignmentSuccess p =>
      { state with
        assignments := state.assignments.filter (fun a => a.mongoId != p)
        isDeleting := false
        assignmentsError := none }
  | .deleteAssignmentFailure p =>
      { state with isDeleting := false, assignmentsError := some p }

/-- C10: a failed create, update or delete leaves the state unchanged
except for clearing the corresponding in-flight flag and recording the
error message (in particular the assignments collection is untouched), and
a successful delete keeps exactly the assignments whose id differs from the
deleted id, as a sublist (all others unchanged, in order). -/
theorem c10_reducer_atomicity (s : AppStateSlice) (p : String) :
    appReducer s (AppActionA.createAssignmentFailure p)
        = { s with isCreating := false, assignmentsError := some p }
      ∧ appReducer s (AppActionA.updateAssignmentFailure p)
        = { s with isUpdating := false, assignmentsError := some p }
      ∧ appReducer s (AppActionA.deleteAssignmentFailure p)
        = { s with isDeleting := false, assignmentsError := some p }
      ∧ (∀ a : Assignment,
          a ∈ (appReducer s (AppActionA.deleteAssignmentSuccess p)).assignments
            ↔ a ∈ s.assignments ∧ a.mongoId ≠ p)
      ∧ List.Sublist
          (appReducer s (AppActionA.deleteAssignmentSuccess p)).assignments
          s.assignments := by
  refine ⟨rfl, rfl, rfl, ?_, ?_⟩
  · intro a
    simp [appReducer, List.mem_filter]
  · simp [appReducer]

end Erm
